import Mathlib

/-!
# Verification of the telegram-webhook finance bot core

Shallow embedding of the Supabase Edge Function `telegram-webhook`
(message parser, Jakarta date resolver, budget evaluator, report
builder, summary-range parser and pending-confirmation cache), with
theorems settling the specification claims.

Conventions of the embedding:
* JavaScript strings are modelled as `List Char` (wrapped into `String`
  at the top level where convenient).
* JavaScript `number` values that the claims touch are exact decimals,
  modelled as `ℚ` (every numeral appearing in the claims is exactly
  representable as a double, so no rounding distinction arises).
* Instants (`Date` values) are milliseconds since the Unix epoch,
  modelled as `ℤ`.  `Date.UTC` field normalisation (out-of-range
  months/days/hours wrap by calendar arithmetic) is modelled exactly.
* Fallible code returns `Option`/`Except`; database and network
  collaborators are oracle parameters supplying their results.
-/

/-! ## Calendar arithmetic (model of the ECMAScript `Date` internals)

Days-from-civil and civil-from-days follow the standard proleptic
Gregorian conversion (the same algorithm ECMAScript engines implement).
-/

/-- Days since 1970-01-01 of the civil date `(y, m, d)` with `m ∈ [1,12]`.
The formula is linear in `d`, matching `Date.UTC`'s day normalisation. -/
def daysFromCivil (y m d : ℤ) : ℤ :=
  let y' := if m ≤ 2 then y - 1 else y
  let era := y'.fdiv 400
  let yoe := y' - era * 400
  let mp := (m + 9).fmod 12
  let doy := (153 * mp + 2).fdiv 5 + d - 1
  let doe := yoe * 365 + yoe.fdiv 4 - yoe.fdiv 100 + doy
  era * 146097 + doe - 719468

/-- Civil date `(y, m, d)` (with `m ∈ [1,12]`) of a count of days since
1970-01-01. Inverse of `daysFromCivil`; used to model
`getUTCFullYear`/`getUTCMonth`/`getUTCDate`. -/
def civilFromDays (z : ℤ) : ℤ × ℤ × ℤ :=
  let z' := z + 719468
  let era := z'.fdiv 146097
  let doe := z' - era * 146097
  let yoe := (doe - doe.fdiv 1460 + doe.fdiv 36524 - doe.fdiv 146096).fdiv 365
  let y := yoe + era * 400
  let doy := doe - (365 * yoe + yoe.fdiv 4 - yoe.fdiv 100)
  let mp := (5 * doy + 2).fdiv 153
  let d := doy - (153 * mp + 2).fdiv 5 + 1
  let m := mp + (if mp < 10 then 3 else -9)
  (if m ≤ 2 then y + 1 else y, m, d)

/-- Milliseconds per day. -/
def msPerDay : ℤ := 86400000

/-- Truncation toward zero of a rational, modelling ECMAScript
`ToIntegerOrInfinity` applied to the finite arguments of `Date.UTC`. -/
def truncQ (q : ℚ) : ℤ := q.num.tdiv (q.den : ℤ)

/-- Model of `Date.UTC(y, m0, d, hh, mm)` (with `m0` 0-based), in
milliseconds since the epoch.  Mirrors the ECMAScript semantics: years
0–99 are mapped to 1900–1999, and out-of-range month/day/hour/minute
fields wrap by calendar arithmetic instead of failing. -/
def dateUTCms (y m0 d hh mm : ℤ) : ℤ :=
  let y1 := if 0 ≤ y ∧ y ≤ 99 then y + 1900 else y
  let ty := y1 + m0.fdiv 12
  let tm := m0.fmod 12
  let days := daysFromCivil ty (tm + 1) 1 + (d - 1)
  days * msPerDay + hh * 3600000 + mm * 60000

/-! ## Character and string utilities (models of the JS operations) -/

/-- Model of the JavaScript `\s` character class (ASCII part; the
inputs in this code base contain no exotic Unicode whitespace). -/
def isJsWs (c : Char) : Bool :=
  c = ' ' || c = '\t' || c = '\n' || c = '\r' || c = '\x0b' || c = '\x0c'

/-- Model of the JavaScript `\w` character class. -/
def isWordChar (c : Char) : Bool := c.isAlpha || c.isDigit || c = '_'

/-- Model of JS `toLowerCase` on one character (ASCII). -/
def jsToLower (c : Char) : Char := c.toLower

/-- Model of JS `toUpperCase` on one character (ASCII). -/
def jsToUpper (c : Char) : Char := c.toUpper

/-- Model of `String.prototype.trim`. -/
def trimWs (l : List Char) : List Char :=
  ((l.dropWhile isJsWs).reverse.dropWhile isJsWs).reverse

/-- Worker for `collapseWs`: the flag records whether the scan is
inside a whitespace run whose single replacement space was already
emitted. -/
def collapseWsAux : Bool → List Char → List Char
  | _, [] => []
  | inRun, c :: cs =>
    if isJsWs c then
      if inRun then collapseWsAux true cs else ' ' :: collapseWsAux true cs
    else c :: collapseWsAux false cs

/-- Model of `.replace(/\s+/g, " ")`: collapse every maximal whitespace
run into a single space. -/
def collapseWs (l : List Char) : List Char := collapseWsAux false l

/-- `text.trim().replace(/\s+/g, " ")` — the cleaning step of
`parseMessage`. -/
def clean (l : List Char) : List Char := collapseWs (trimWs l)

/-- Model of JS `String.prototype.split(sep)` for a one-character
separator (so `"a--b".split("-") = ["a", "", "b"]`). -/
def splitOnChar (sep : Char) : List Char → List (List Char)
  | [] => [[]]
  | c :: rest =>
    match splitOnChar sep rest with
    | [] => if c = sep then [[], []] else [[c]]
    | h :: t => if c = sep then [] :: h :: t else (c :: h) :: t

/-- Natural value of a list of decimal digits. -/
def digitsValN (l : List Char) : ℕ :=
  l.foldl (fun acc c => 10 * acc + (c.toNat - 48)) 0

/-- Numeric value of a list of decimal digits. -/
def digitsVal (l : List Char) : ℚ := (digitsValN l : ℚ)

/-- Integer value of a list of decimal digits (model of `parseInt` on an
all-digit string). -/
def digitsIntVal (l : List Char) : ℤ := (digitsValN l : ℤ)

/-- Unsigned decimal part of the JS `Number()` coercion:
`digits [ "." digits ]`, also accepting `".5"` and `"5."`. -/
def parseUnsigned (l : List Char) : Option ℚ :=
  let p := l.span Char.isDigit
  match p.2 with
  | [] => if p.1 = [] then none else some (digitsVal p.1)
  | '.' :: fs =>
    if fs.all Char.isDigit ∧ (p.1 ≠ [] ∨ fs ≠ []) then
      some (digitsVal p.1 + digitsVal fs / (10 : ℚ) ^ fs.length)
    else none
  | _ :: _ => none

/-- Model of the JS `Number()` coercion on the strings this code feeds
it: whitespace-trimmed optional sign followed by a plain decimal
literal.  `none` models `NaN`.  (Hex/exponent/`Infinity` forms never
arise from this code's inputs.) -/
def jsNumber (l : List Char) : Option ℚ :=
  match trimWs l with
  | [] => some 0
  | c :: r =>
    if c = '-' then (parseUnsigned r).map (fun q => -q)
    else if c = '+' then parseUnsigned r
    else parseUnsigned (c :: r)

/-- Read one space-delimited token from a whitespace-collapsed string:
returns the maximal `' '`-free prefix and the remainder after the
separating space (models one `(\S+)\s` step of the parser regex). -/
def readTok : List Char → List Char × List Char
  | [] => ([], [])
  | c :: rest =>
    if c = ' ' then ([], rest)
    else ((readTok rest).1.cons c, (readTok rest).2)

/-! ## Date Resolver: `parseJakartaDate`

Source (`src/unnamed/part_000`, lines 24–32):
```js
function parseJakartaDate(str) {
  const [datePart, timePart] = str.split(" ");
  const [y, m, d] = datePart.split("-").map(Number);
  const [hh, mm] = timePart.split(":").map(Number);
  const utc = new Date(Date.UTC(y, m - 1, d, hh, mm));
  utc.setUTCHours(utc.getUTCHours() - 7);
  return utc;
}
```
`none` models both an invalid (`NaN`) resulting date and the
`TypeError` thrown when `timePart` is missing — either way the caller
rejects the timestamp.  `Number(undefined)` is `NaN`, modelled by a
missing list entry mapping to `none`. -/

/-- `Number` applied to an optional split component
(`Number(undefined) = NaN = none`). -/
def jsNumOf (o : Option (List Char)) : Option ℚ :=
  match o with
  | none => none
  | some s => jsNumber s

/-- Model of `parseJakartaDate`: milliseconds since epoch of the UTC
instant, or `none` for an invalid result. -/
def parseJakartaDate (str : List Char) : Option ℤ := do
  let parts := splitOnChar ' ' str
  let datePart := parts.headD []
  let timePart ← parts.get? 1
  let ymd := splitOnChar '-' datePart
  let y ← jsNumOf (ymd.get? 0)
  let m ← jsNumOf (ymd.get? 1)
  let d ← jsNumOf (ymd.get? 2)
  let hm := splitOnChar ':' timePart
  let hh ← jsNumOf (hm.get? 0)
  let mm ← jsNumOf (hm.get? 1)
  pure (dateUTCms (truncQ y) (truncQ m - 1) (truncQ d) (truncQ hh) (truncQ mm)
        - 7 * 3600000)

/-! ## Message Parser: `parseMessage`

Source (`src/unnamed/part_000`, lines 35–67).  The regex

```
/^(income|outcome)\s+(\d+(?:[\.,]\d{1,2})?)\s+(\S+)\s+(\S+)(?:\s+\[(.+?)\])?(?:\s+(.*))?$/i
```

is applied to the whitespace-collapsed string, where it decomposes
token-wise: `\S+` groups are the maximal space-free tokens, the
optional lazy-bracket group `(?:\s+\[(.+?)\])?` fires exactly when the
remainder after the fourth token starts with `" ["` and contains a
first `']'` (at least two characters after the `'['`) followed by a
space or the end, and `(.*)` takes the rest.  The functions below
implement exactly that decomposition. -/

/-- The transaction draft returned by `parseMessage`.  `occurred_at` is
in milliseconds since the epoch (`toISOString` is the identity in this
model); when no timestamp is embedded the caller-supplied `now` is
used, modelling `new Date()`. -/
structure Draft where
  type : String
  amount : ℚ
  category : String
  account : String
  occurred_at : ℤ
  description : Option String
deriving DecidableEq, Repr

/-- Does the lower-cased first token match `(income|outcome)` exactly
(the regex requires whitespace right after the group)? -/
def typeOk (t : List Char) : Bool :=
  t.map jsToLower = "income".data || t.map jsToLower = "outcome".data

/-- Does a token match `\d+(?:[\.,]\d{1,2})?` exactly? -/
def amountShape (t : List Char) : Bool :=
  let p := t.span Char.isDigit
  !p.1.isEmpty &&
    (match p.2 with
     | [] => true
     | s :: fs =>
       (s = '.' || s = ',') && !fs.isEmpty && fs.length ≤ 2 && fs.all Char.isDigit)

/-- Numeric value of the matched amount token:
`Number(amountRaw.replace(/\./g, "").replace(",", "."))` — every `'.'`
stripped, then the first `','` replaced by `'.'`. -/
def amountValue (t : List Char) : Option ℚ :=
  jsNumber (((t.filter (· ≠ '.')).replace ',' '.'))

/-- `categoryRaw.trim().toLowerCase().replace(/^\w/, c => c.toUpperCase())`:
lower-case everything, then upper-case a leading word character. -/
def capFirstWord (l : List Char) : List Char :=
  match l with
  | [] => []
  | c :: r => (if isWordChar c then jsToUpper c else c) :: r

/-- Scan for the first `']'` with at least one character before it
whose successor is a space or the end of input: the lazy `(.+?)\]`
match of the bracket group.  Returns the bracket content and the
remainder after the `']'`. -/
def bracketScan (acc : List Char) : List Char → Option (List Char × List Char)
  | [] => none
  | c :: rest =>
    if c = ']' ∧ acc ≠ [] ∧ (rest = [] ∨ rest.head? = some ' ') then
      some (acc.reverse, rest)
    else bracketScan (c :: acc) rest

/-- The format error thrown when the regex does not match. -/
def formatErrMsg : String :=
  "Format: <income|outcome> <amount> <Category> <Account> [optional [YYYY-MM-DD HH:MM]] <optional description>"

/-- Split the remainder after the fourth token into the optional
bracketed-timestamp capture and the optional description capture,
following the regex `(?:\s+\[(.+?)\])?(?:\s+(.*))?$` (applied here to
the remainder with its leading separator space already consumed). -/
def bracketSplit (r : List Char) : Option (List Char) × Option (List Char) :=
  match r with
  | [] => (none, none)
  | c :: tail =>
    if c = '[' then
      match bracketScan [] tail with
      | some (inner, after) =>
        (some inner, match after with
                     | [] => none
                     | _ :: d => some d)
      | none => (none, some (c :: tail))
    else (none, some (c :: tail))

/-- The description value: `(descRaw ?? "").trim() || null`. -/
def descOf (o : Option (List Char)) : Option String :=
  match o with
  | none => none
  | some d =>
    let d' := trimWs d
    if d'.isEmpty then none else some (String.mk d')

/-- `parseMessage` applied to the already-cleaned string. -/
def parseMessageCore (now : ℤ) (s : List Char) : Except String Draft :=
  let p1 := readTok s
  let p2 := readTok p1.2
  let p3 := readTok p2.2
  let p4 := readTok p3.2
  if typeOk p1.1 && amountShape p2.1 && !p3.1.isEmpty && !p4.1.isEmpty then
    match amountValue p2.1 with
    | none => .error "Bad amount"
    | some amount =>
      if amount < 0 then .error "Bad amount"
      else
        let type := String.mk (p1.1.map jsToLower)
        let category := String.mk (capFirstWord ((trimWs p3.1).map jsToLower))
        let account := String.mk (trimWs p4.1)
        let bd := bracketSplit p4.2
        match bd.1 with
        | some occurredRaw =>
          match parseJakartaDate occurredRaw with
          | none => .error "Invalid occurred_at"
          | some t =>
            .ok ⟨type, amount, category, account, t, descOf bd.2⟩
        | none =>
          .ok ⟨type, amount, category, account, now, descOf bd.2⟩
  else .error formatErrMsg

/-- Model of `parseMessage` (`src/unnamed/part_000`, lines 35–67).
`now` models the `new Date()` default for `occurred_at`. -/
def parseMessage (now : ℤ) (text : String) : Except String Draft :=
  parseMessageCore now (clean text.data)

/-! ## Budget Evaluator: `checkBudgetStatus` / `insertTransaction`

Source (`src/unnamed/part_000`, lines 175–342).  Database reads are
oracle parameters: `budgets` is the result of the budgets query and
`txsIn s e` the result of the transactions query over the window
`[s, e)` (already scoped to user/category/type/not-deleted by the query
itself).  An `Except.error` models a returned query error. -/

/-- A row of the `budgets` query (dates already parsed to ms). -/
structure Budget where
  amount : ℚ
  period : String
  start_date : ℤ
  end_date : Option ℤ
  currency : String
deriving Repr

/-- A row of the transactions query used for net-spend computation. -/
structure TxRow where
  type : String
  amount : ℚ
deriving Repr

/-- Oracle for the two database reads of `checkBudgetStatus`. -/
structure BudgetOracle where
  budgets : Except Unit (List Budget)
  txsIn : ℤ → ℤ → Except Unit (List TxRow)

/-- A structured budget alert.  The source renders these as HTML
strings; the model keeps the cited numbers as fields (lines 294 and
297: exceeded carries the excess, budget amount and displayed spend;
warning carries the percentage, budget amount, displayed spend and
remaining). -/
inductive BudgetAlert
  | exceeded (excess budgetAmount displaySpent : ℚ) (currency : String)
  | warning (percentageUsed budgetAmount displaySpent remaining : ℚ) (currency : String)
deriving DecidableEq, Repr

/-- A structured progress line (line 289: period label, displayed
spend, budget amount, percentage, remaining, currency). -/
structure BudgetProgress where
  periodLabel : String
  displaySpent : ℚ
  budgetAmount : ℚ
  percentageUsed : ℚ
  remaining : ℚ
  currency : String
deriving DecidableEq, Repr

/-- `budget.period.charAt(0).toUpperCase() + budget.period.slice(1)`. -/
def periodLabelOf (p : String) : String :=
  match p.data with
  | [] => ""
  | c :: r => String.mk (jsToUpper c :: r)

/-- The per-budget alert/progress computation of `checkBudgetStatus`
(lines 279–302): percentage, remaining, clamped display spend, and the
three-way alert branch. -/
def classifyBudget (budgetAmount totalSpent : ℚ) (currency periodLabel : String) :
    Option BudgetAlert × BudgetProgress :=
  let percentageUsed := if 0 < totalSpent then totalSpent / budgetAmount * 100 else 0
  let remaining := budgetAmount - totalSpent
  let displaySpent := max 0 totalSpent
  let progress : BudgetProgress :=
    ⟨periodLabel, displaySpent, budgetAmount, percentageUsed, remaining, currency⟩
  if budgetAmount < totalSpent then
    (some (.exceeded (totalSpent - budgetAmount) budgetAmount displaySpent currency),
     progress)
  else if 90 ≤ percentageUsed ∧ 0 < totalSpent then
    (some (.warning percentageUsed budgetAmount displaySpent remaining currency),
     progress)
  else (none, progress)

/-- The `forEach` totalling of lines 269–277: accumulate
`(totalOutcome, totalIncome)`. -/
def spendTotals (txs : List TxRow) : ℚ × ℚ :=
  txs.foldl
    (fun acc t =>
      if t.type = "outcome" then (acc.1 + t.amount, acc.2)
      else if t.type = "income" then (acc.1, acc.2 + t.amount)
      else acc)
    (0, 0)

/-- `totalSpent = totalOutcome - totalIncome` (line 278): the net spend
of a window's transactions. -/
def netSpendOf (txs : List TxRow) : ℚ :=
  (spendTotals txs).1 - (spendTotals txs).2

/-- The period-window `switch` of lines 205–234: the raw (unclamped)
`[periodStart, periodEnd)` window in ms for a transaction instant,
or `none` for an unknown period string (the `default: continue`). -/
def periodWindow (period : String) (t : ℤ) : Option (ℤ × ℤ) :=
  let day := t.fdiv msPerDay
  if period = "daily" then
    some (day * msPerDay, (day + 1) * msPerDay)
  else if period = "weekly" then
    let dow := (day + 4).fmod 7
    some ((day - dow) * msPerDay, (day - dow + 7) * msPerDay)
  else if period = "monthly" then
    let c := civilFromDays day
    some (dateUTCms c.1 (c.2.1 - 1) 1 0 0, dateUTCms c.1 c.2.1 1 0 0)
  else if period = "yearly" then
    let c := civilFromDays day
    some (dateUTCms c.1 0 1 0 0, dateUTCms (c.1 + 1) 0 1 0 0)
  else none

/-- One iteration of the `for (const budget of budgets)` loop (lines
200–302): `none` when the body `continue`s (unknown period, transaction
outside the budget's own bounds, or transaction-query error); otherwise
the optional alert and the (always pushed) progress line. -/
def budgetStep (o : BudgetOracle) (txDate : ℤ) (b : Budget) :
    Option (Option BudgetAlert × BudgetProgress) :=
  match periodWindow b.period txDate with
  | none => none
  | some (ps, pe) =>
    if txDate < b.start_date ∨ (∃ e, b.end_date = some e ∧ e ≤ txDate) then none
    else
      let ps' := if ps < b.start_date then b.start_date else ps
      let pe' := match b.end_date with
                 | some e => if e < pe then e else pe
                 | none => pe
      match o.txsIn ps' pe' with
      | .error _ => none
      | .ok txs =>
        some (classifyBudget b.amount (netSpendOf txs) b.currency
                (periodLabelOf b.period))

/-- The full budget loop: alert and progress lines in budget order. -/
def budgetLoop (o : BudgetOracle) (txDate : ℤ) :
    List Budget → List BudgetAlert × List BudgetProgress
  | [] => ([], [])
  | b :: rest =>
    let tail := budgetLoop o txDate rest
    match budgetStep o txDate b with
    | none => tail
    | some (al?, pr) =>
      (match al? with
       | some a => a :: tail.1
       | none => tail.1,
       pr :: tail.2)

/-- The `{alerts, progress}` result: each side is `none` when its list
is empty (the `length > 0 ? join : null` of lines 305–308). -/
structure BudgetStatusRes where
  alerts : Option (List BudgetAlert)
  progress : Option (List BudgetProgress)
deriving Repr

/-- Model of `checkBudgetStatus` (lines 175–309): `none` models the
`return null` on a budgets-query error; a budgets-less category yields
`{alerts := none, progress := none}`. -/
def checkBudgetStatus (o : BudgetOracle) (txDate : ℤ) : Option BudgetStatusRes :=
  match o.budgets with
  | .error _ => none
  | .ok budgets =>
    if budgets.isEmpty then some ⟨none, none⟩
    else
      let r := budgetLoop o txDate budgets
      some ⟨if r.1.isEmpty then none else some r.1,
            if r.2.isEmpty then none else some r.2⟩

/-- JS truthiness of the optional `userId` string (`undefined` and `""`
are falsy). -/
def jsTruthyStr (u : Option String) : Bool :=
  match u with
  | none => false
  | some s => !(s = "")

/-- Oracle for the database writes/reads of `insertTransaction`. -/
structure InsertOracle where
  categoryId : Except Unit String
  accountId : Except Unit String
  insertId : Except Unit String
  budget : BudgetOracle

/-- The parameter record passed to `insertTransaction`. -/
structure TxParams where
  type : String
  amount : ℚ
  categoryName : String
  accountName : String
  occurred_at : ℤ
  description : Option String

/-- The value returned by `insertTransaction`. -/
structure InsertResult where
  id : String
  budgetInfo : Option BudgetStatusRes
deriving Repr

/-- Model of `insertTransaction` (lines 311–342): resolve category and
account, insert the row, then evaluate budgets only for a truthy user
id and an `outcome` type; the surrounding `try/catch` means a budget
evaluation failure never fails the insert (in this model the failure
paths are the `none` results of `checkBudgetStatus` and the skipped
budgets inside it). -/
def insertTransaction (o : InsertOracle) (p : TxParams) (userId : Option String) :
    Except Unit InsertResult := do
  let _cid ← o.categoryId
  let _aid ← o.accountId
  let id ← o.insertId
  let budgetInfo : Option BudgetStatusRes :=
    if jsTruthyStr userId ∧ p.type = "outcome" then
      match checkBudgetStatus o.budget p.occurred_at with
      | some st =>
        if st.progress.isSome ∨ st.alerts.isSome then some st else none
      | none => none
    else none
  pure ⟨id, budgetInfo⟩

/-! ## Summary-range parsing: `parseSummaryDateInput`

Source (`src/unnamed/part_000`, lines 395–480).  The range regex

```
/^(\w+)\s+(\d{4})\s*[-–]\s*(\w+)\s+(\d{4})$/i
```

decomposes deterministically (word and whitespace classes are
disjoint, and the fixed-width `\d{4}` groups admit no backtracking):
a maximal word run, mandatory whitespace, exactly four digits, optional
whitespace, a hyphen or en-dash, optional whitespace, a maximal word
run, mandatory whitespace, exactly four digits, end of input. -/

/-- A month of a year, as produced by the summary parser. -/
structure YM where
  year : ℤ
  month : ℤ
deriving DecidableEq, Repr

/-- The `monthMap` object literal of lines 464–477. -/
def monthMap : List (String × ℤ) :=
  [("jan", 1), ("january", 1), ("januari", 1),
   ("feb", 2), ("february", 2), ("februari", 2),
   ("mar", 3), ("march", 3), ("maret", 3),
   ("apr", 4), ("april", 4),
   ("may", 5), ("mei", 5),
   ("jun", 6), ("june", 6), ("juni", 6),
   ("jul", 7), ("july", 7), ("juli", 7),
   ("aug", 8), ("august", 8), ("agustus", 8),
   ("sep", 9), ("sept", 9), ("september", 9),
   ("oct", 10), ("october", 10), ("oktober", 10),
   ("nov", 11), ("november", 11),
   ("dec", 12), ("december", 12), ("desember", 12)]

/-- `monthMap[key]`: property lookup on the object literal. -/
def monthNameVal (k : String) : Option ℤ :=
  (monthMap.find? (fun p => p.1 = k)).map (·.2)

/-- `parseMonthName` (lines 463–480 continued): look the lower-cased
token up in the month map. -/
def parseMonthName (s : List Char) : Option ℤ :=
  monthNameVal (String.mk (s.map jsToLower))

/-- Matcher for the range regex: returns the four captured groups
`(startMonthStr, startYearStr, endMonthStr, endYearStr)`. -/
def rangeMatch (l : List Char) : Option (List Char × List Char × List Char × List Char) :=
  let pw1 := l.span isWordChar
  if pw1.1.isEmpty then none else
  let ps1 := pw1.2.span isJsWs
  if ps1.1.isEmpty then none else
  let y1 := ps1.2.take 4
  let r3 := ps1.2.drop 4
  if ¬ (y1.length = 4 ∧ y1.all Char.isDigit) then none else
  let ps2 := r3.span isJsWs
  match ps2.2 with
  | [] => none
  | dash :: r5 =>
    if dash = '-' ∨ dash = '–' then
      let ps3 := r5.span isJsWs
      let pw2 := ps3.2.span isWordChar
      if pw2.1.isEmpty then none else
      let ps4 := pw2.2.span isJsWs
      if ps4.1.isEmpty then none else
      if ps4.2.length = 4 ∧ ps4.2.all Char.isDigit then
        some (pw1.1, y1, pw2.1, ps4.2)
      else none
    else none

/-- Matcher for the single-month regex `^(\w+)\s+(\d{4})$/i`. -/
def singleMonthMatch (l : List Char) : Option (List Char × List Char) :=
  let pw := l.span isWordChar
  if pw.1.isEmpty then none else
  let ps := pw.2.span isJsWs
  if ps.1.isEmpty then none else
  if ps.2.length = 4 ∧ ps.2.all Char.isDigit then some (pw.1, ps.2) else none

/-- Matcher for `^(\d{4})-(\d{1,2})$`. -/
def yyyymmMatch (l : List Char) : Option (List Char × List Char) :=
  let y := l.take 4
  let r := l.drop 4
  if ¬ (y.length = 4 ∧ y.all Char.isDigit) then none else
  match r with
  | '-' :: ms =>
    if ms.length = 1 ∨ ms.length = 2 then
      if ms.all Char.isDigit then some (y, ms) else none
    else none
  | _ => none

/-- The month-accumulation loop of lines 417–431: push the current
month, stop after the push once the list is longer than 24 entries
(the `if (months.length > 24) break` safety check), else advance to
the next month, wrapping December into January. -/
def rangeLoop (ey em : ℤ) (y m : ℤ) (acc : List YM) : List YM :=
  if y < ey ∨ (y = ey ∧ m ≤ em) then
    if 24 < (acc ++ [(⟨y, m⟩ : YM)]).length then acc ++ [(⟨y, m⟩ : YM)]
    else
      if 12 < m + 1 then rangeLoop ey em (y + 1) 1 (acc ++ [(⟨y, m⟩ : YM)])
      else rangeLoop ey em y (m + 1) (acc ++ [(⟨y, m⟩ : YM)])
  else acc
termination_by 25 - acc.length
decreasing_by
  all_goals
    simp only [List.length_append, List.length_cons, List.length_nil, not_lt] at *
    omega

/-- The range branch (lines 408–435): both month names must resolve and
both years must be ≥ 2000, otherwise the code falls through to the next
branch. -/
def rangeBranch (input : List Char) : Option (List YM) :=
  match rangeMatch input with
  | none => none
  | some (w1, y1s, w2, y2s) =>
    match parseMonthName w1, parseMonthName w2 with
    | some sm, some em =>
      let sy := digitsIntVal y1s
      let ey := digitsIntVal y2s
      if 2000 ≤ sy ∧ 2000 ≤ ey then some (rangeLoop ey em sy sm []) else none
    | _, _ => none

/-- The single-month branch (lines 438–447). -/
def singleMonthBranch (input : List Char) : Option (List YM) :=
  match singleMonthMatch input with
  | none => none
  | some (w, ys) =>
    match parseMonthName w with
    | some m =>
      let y := digitsIntVal ys
      if 2000 ≤ y ∧ y ≤ 2100 then some [⟨y, m⟩] else none
    | none => none

/-- The `YYYY-MM` branch (lines 450–457). -/
def yyyymmBranch (input : List Char) : Option (List YM) :=
  match yyyymmMatch input with
  | none => none
  | some (ys, ms) =>
    let y := digitsIntVal ys
    let m := digitsIntVal ms
    if 2000 ≤ y ∧ y ≤ 2100 ∧ 1 ≤ m ∧ m ≤ 12 then some [⟨y, m⟩] else none

/-- Model of `parseSummaryDateInput` (lines 395–460).  `nowYM` is the
current Jakarta month used by the empty/`"today"` branch; `none` models
the final `throw`. -/
def parseSummaryDateInput (nowYM : YM) (input : List Char) : Option (List YM) :=
  if input.isEmpty ∨ input.map jsToLower = "today".data then some [nowYM]
  else
    match rangeBranch input with
    | some r => some r
    | none =>
      match singleMonthBranch input with
      | some r => some r
      | none => yyyymmBranch input

/-! ### Specification-side month sequence (for the refinement statement)

Modelled from the spec's words: "an inclusive sequence of consecutive
months" from the start month to the end month. -/

/-- Linear month index: `monthIndex y m = 12 * y + (m - 1)`. -/
def monthIndex (y m : ℤ) : ℤ := 12 * y + (m - 1)

/-- Month of a linear month index. -/
def ymOfIndex (i : ℤ) : YM := ⟨i.fdiv 12, i.fmod 12 + 1⟩

/-- The inclusive sequence of consecutive months from `(sy, sm)` to
`(ey, em)` (empty when the start lies after the end).  This is the
specification-side description against which the loop is compared. -/
def inclusiveMonths (sy sm ey em : ℤ) : List YM :=
  (List.range (monthIndex ey em - monthIndex sy sm + 1).toNat).map
    (fun i : ℕ => ymOfIndex (monthIndex sy sm + (i : ℤ)))

/-! ## Report Builder: `formatOutcomeReport`

Source (`src/unnamed/part_000`, lines 526–590). -/

/-- Decimal digit character. -/
def digitChar (d : ℕ) : Char := Char.ofNat (48 + d)

/-- Decimal digits of a natural number, with structural fuel (so that
concrete values reduce inside the kernel). -/
def natToDigitsAux : ℕ → ℕ → List Char
  | 0, _ => []
  | fuel + 1, n =>
    if n < 10 then [digitChar n]
    else natToDigitsAux fuel (n / 10) ++ [digitChar (n % 10)]

/-- Decimal digits of a natural number (model of JS number-to-string
for integers). -/
def natToDigits (n : ℕ) : List Char := natToDigitsAux (n + 1) n

/-- Model of JS `String(i)` for an integer. -/
def intToString (i : ℤ) : String :=
  if i < 0 then String.mk ('-' :: natToDigits i.natAbs)
  else String.mk (natToDigits i.toNat)

/-- Model of `String.prototype.padStart(n, c)`. -/
def padStartL (l : List Char) (n : ℕ) (c : Char) : List Char :=
  List.replicate (n - l.length) c ++ l

/-- Insert `'.'` thousands separators into a digit list (id-ID number
grouping). -/
def groupThousands (ds : List Char) : List Char :=
  if ds.length ≤ 3 then ds
  else groupThousands (ds.take (ds.length - 3)) ++ '.' :: ds.drop (ds.length - 3)
termination_by ds.length
decreasing_by simp; omega

/-- Half-away-from-zero rounding of a rational to an integer. -/
def roundHalfExpand (q : ℚ) : ℤ :=
  if q < 0 then -⌊-q + 1 / 2⌋ else ⌊q + 1 / 2⌋

/-- Best-effort model of `Number.prototype.toLocaleString('id-ID')`:
`'.'`-grouped integer part, `','` plus up to three rounded fraction
digits.  The claims only exercise integer values. -/
def toLocaleStringIdID (q : ℚ) : String :=
  let scaled := roundHalfExpand (q * 1000)
  let sign := if scaled < 0 then "-" else ""
  let n := scaled.natAbs
  let ip := n / 1000
  let fp := n % 1000
  let fracDigits := (padStartL (natToDigits fp) 3 '0').reverse.dropWhile (· = '0')
  sign ++ String.mk (groupThousands (natToDigits ip)) ++
    (if fp = 0 then "" else "," ++ String.mk fracDigits.reverse)

/-- Model of `Number.prototype.toFixed(1)`. -/
def toFixed1 (q : ℚ) : String :=
  let scaled := roundHalfExpand (q * 10)
  let sign := if scaled < 0 then "-" else ""
  let n := scaled.natAbs
  sign ++ String.mk (natToDigits (n / 10)) ++ "." ++ String.mk (natToDigits (n % 10))

/-- The `dateParams` record produced by `parseDateInput` and consumed
by `formatOutcomeReport`: `month` is only meaningful when `isFullYear`
is false. -/
structure DateParams where
  year : ℤ
  month : ℤ
  isFullYear : Bool
deriving Repr

/-- The joined row shape returned by the outcomes query. -/
structure OutcomeRow where
  amount : ℚ
  occurred_at : ℤ
  description : Option String
  categoryName : Option String
  accountName : Option String
deriving Repr

/-- The period string of lines 528–530 and 549–551:
`YYYY` for a full-year query, `MM/YYYY` (zero-padded month) otherwise. -/
def periodString (dp : DateParams) : String :=
  if dp.isFullYear then intToString dp.year
  else String.mk (padStartL (intToString dp.month).data 2 '0') ++ "/" ++ intToString dp.year

/-- Category-grouping of lines 538–546: fold rows into an association
list keyed by category name (`'Unknown'` when missing), preserving
first-occurrence key order, summing amounts and counting rows. -/
def groupByCategory (rows : List OutcomeRow) : List (String × ℚ × ℕ) :=
  rows.foldl
    (fun acc t =>
      let k := t.categoryName.getD "Unknown"
      if acc.any (·.1 = k) then
        acc.map (fun p => if p.1 = k then (p.1, p.2.1 + t.amount, p.2.2 + 1) else p)
      else acc ++ [(k, t.amount, 1)])
    []

/-- `toLocaleDateString("en-GB", {timeZone: "Asia/Jakarta", day: "2-digit",
month: "2-digit"})`: the Jakarta-local `DD/MM` of an instant. -/
def jakartaDDMM (t : ℤ) : String :=
  let c := civilFromDays ((t + 7 * 3600000).fdiv msPerDay)
  String.mk (padStartL (intToString c.2.2).data 2 '0') ++ "/" ++
    String.mk (padStartL (intToString c.2.1).data 2 '0')

/-- One line of the recent-transactions block (lines 569–582). -/
def recentLine (t : OutcomeRow) : String :=
  "• " ++ jakartaDDMM t.occurred_at ++ " - " ++ toLocaleStringIdID t.amount ++
    " IDR (" ++ t.categoryName.getD "Unknown" ++ "/" ++ t.accountName.getD "Unknown" ++ ")" ++
    (match t.description with
     | some d => " - " ++ d
     | none => "") ++ "\n"

/-- Model of `formatOutcomeReport` (lines 526–590). -/
def formatOutcomeReport (outcomes : List OutcomeRow) (dp : DateParams) : String :=
  if outcomes.isEmpty then
    "📊 No outcomes found for " ++ periodString dp
  else
    let totalAmount := outcomes.foldl (fun s t => s + t.amount) 0
    let byCategory := groupByCategory outcomes
    let sorted := byCategory.mergeSort (fun a b => b.2.1 ≤ a.2.1)
    let header :=
      "📊 <b>Outcome Report - " ++ periodString dp ++ "</b>\n\n" ++
      "💰 <b>Total: " ++ toLocaleStringIdID totalAmount ++ " IDR</b>\n" ++
      "📝 <b>Transactions: " ++ intToString outcomes.length ++ "</b>\n\n" ++
      "<b>By Category:</b>\n"
    let catLines := sorted.foldl
      (fun s p =>
        s ++ "• " ++ p.1 ++ ": " ++ toLocaleStringIdID p.2.1 ++ " IDR (" ++
          toFixed1 (p.2.1 / totalAmount * 100) ++ "%) - " ++ intToString p.2.2 ++ "x\n")
      ""
    let recent :=
      "\n<b>Recent Transactions:</b>\n" ++
      ((outcomes.take 5).foldl (fun s t => s ++ recentLine t) "") ++
      (if 5 < outcomes.length then
        "... and " ++ intToString (outcomes.length - 5) ++ " more transactions\n"
      else "")
    header ++ catLines ++ recent

/-! ## Conversation Controller: the pending-confirmation cache

Source (`src/unnamed/part_002`, lines 14–19, 194–202 and the handler
at 567–691).  The cache is a JS `Map` keyed by chat id, modelled as an
association list with `Map` update semantics (update-in-place keeps
the position, new keys append). -/

/-- An entry of `pendingConfirmations`. -/
structure PendingEntry where
  ocrText : String
  timestamp : ℤ
  imageUrl : Option String
deriving DecidableEq, Repr

/-- The pending-confirmation store. -/
abbrev Cache := List (String × PendingEntry)

/-- JS `Map.prototype.set`: replace in place, else append. -/
def mapSet (k : String) (v : PendingEntry) (c : Cache) : Cache :=
  if c.any (·.1 = k) then c.map (fun p => if p.1 = k then (k, v) else p)
  else c ++ [(k, v)]

/-- JS `Map.prototype.delete`. -/
def mapDelete (k : String) (c : Cache) : Cache := c.filter (·.1 ≠ k)

/-- JS `Map.prototype.get` combined with `has`. -/
def mapGet (k : String) (c : Cache) : Option PendingEntry :=
  (c.find? (·.1 = k)).map (·.2)

/-- Five minutes in milliseconds. -/
def fiveMinutesMs : ℤ := 5 * 60 * 1000

/-- Model of `cleanupOldConfirmations` (lines 194–202): delete every
entry whose timestamp is strictly older than five minutes. -/
def cleanupOldConfirmations (now : ℤ) (c : Cache) : Cache :=
  c.filter (fun p => ¬ (p.2.timestamp < now - fiveMinutesMs))

/-- The inbound events that touch the cache. -/
inductive InboundEvent
  | photo (extractedText : String)
  | text (content : String)

/-- The cache-relevant slice of one handler invocation
(`src/unnamed/part_002`, lines 585–691): clean up expired entries
first; a photo stores the OCR text with the current time; a text either
consumes a pending confirmation (`yes`/`y` parses the stored OCR text —
the returned entry is the one used; the entry is removed on success and
on `no`/`n`/successful correction, and kept when parsing fails so the
user can retry) or, with no pending entry, leaves the cache unchanged.
`ok` abstracts whether the attempted parse-and-insert succeeded. -/
def handleEvent (now : ℤ) (chatId : String) (ev : InboundEvent) (ok : Bool)
    (c : Cache) : Cache × Option PendingEntry :=
  match ev with
  | .photo t =>
    (mapSet chatId ⟨t, now, none⟩ (cleanupOldConfirmations now c), none)
  | .text s =>
    let c1 := cleanupOldConfirmations now c
    match mapGet chatId c1 with
    | some e =>
      let response := String.mk (trimWs (s.data.map jsToLower))
      if response = "yes" ∨ response = "y" then
        if ok then (mapDelete chatId c1, some e) else (c1, some e)
      else if response = "no" ∨ response = "n" then
        (mapDelete chatId c1, none)
      else
        if ok then (mapDelete chatId c1, none) else (c1, none)
    | none => (c1, none)

/-- The cache states reachable by the handler from the initial empty
module-level `Map`. -/
inductive CacheReachable : Cache → Prop
  | init : CacheReachable []
  | step (now : ℤ) (chatId : String) (ev : InboundEvent) (ok : Bool) {c : Cache} :
      CacheReachable c → CacheReachable (handleEvent now chatId ev ok c).1


/-! ## Rendering helpers and specification-side definitions for the
Date Resolver claims -/

/-- Two-digit zero-padded decimal rendering. -/
def pad2 (n : ℕ) : List Char := [digitChar (n / 10), digitChar (n % 10)]

/-- Four-digit zero-padded decimal rendering. -/
def pad4 (n : ℕ) : List Char :=
  [digitChar (n / 1000), digitChar (n / 100 % 10), digitChar (n / 10 % 10), digitChar (n % 10)]

/-- The canonical `"YYYY-MM-DD HH:MM"` rendering of timestamp fields. -/
def renderTimestamp (y m d hh mm : ℕ) : List Char :=
  pad4 y ++ ('-' :: (pad2 m ++ ('-' :: (pad2 d ++ (' ' :: (pad2 hh ++ (':' :: pad2 mm)))))))

/-- Modelled from the spec: the naive instant built directly from
calendar fields (`ms` since epoch), against which `parseJakartaDate` is
compared ("construct the naive instant and subtract 7 hours"). -/
def naiveUtcMs (y m d hh mm : ℤ) : ℤ :=
  daysFromCivil y m d * msPerDay + hh * 3600000 + mm * 60000

/-! ## Supporting evaluation lemmas -/

/-- `truncQ` is the identity on natural values (used when `Date.UTC`
receives the integral results of `Number()` on digit strings). -/
theorem truncQ_natCast (n : ℕ) : truncQ (n : ℚ) = (n : ℤ) := by
  simp [truncQ]

/-! ## Claim C1: budget alert classification -/

/-- C1.  For a budget of amount `B` evaluated against net spend `S`
(outcome total minus income total of the window's transactions): an
exceeded alert citing the excess `S - B` is emitted exactly when
`S > B`; a warning alert citing `percentageUsed` is emitted exactly
when no exceeded alert fires, `percentageUsed ≥ 90` and `S > 0`, where
`percentageUsed = (S > 0 ? S/B*100 : 0)`; a progress line with the
display spend clamped to non-negative, `B`, the percentage and the
remaining `B - S` is always emitted.  In particular `B = 100000` with
net spend `95000` gives `percentageUsed = 95` and a warning (not
exceeded) alert, and `B = 100000` with net spend `120000` gives an
exceeded alert citing `20000`. -/
theorem c1_budget_alert_classification :
    (∀ (B : ℚ) (txs : List TxRow) (cur pl : String),
      ((classifyBudget B (netSpendOf txs) cur pl).1 =
          some (.exceeded (netSpendOf txs - B) B (max 0 (netSpendOf txs)) cur) ↔
        B < netSpendOf txs) ∧
      ((classifyBudget B (netSpendOf txs) cur pl).1 =
          some (.warning (if 0 < netSpendOf txs then netSpendOf txs / B * 100 else 0) B
            (max 0 (netSpendOf txs)) (B - netSpendOf txs) cur) ↔
        (¬ B < netSpendOf txs ∧
          90 ≤ (if 0 < netSpendOf txs then netSpendOf txs / B * 100 else 0) ∧
          0 < netSpendOf txs)) ∧
      (classifyBudget B (netSpendOf txs) cur pl).2 =
        ⟨pl, max 0 (netSpendOf txs), B,
          if 0 < netSpendOf txs then netSpendOf txs / B * 100 else 0,
          B - netSpendOf txs, cur⟩) ∧
    classifyBudget 100000 (netSpendOf [⟨"outcome", 95000⟩]) "IDR" "Monthly" =
      (some (.warning 95 100000 95000 5000 "IDR"),
       ⟨"Monthly", 95000, 100000, 95, 5000, "IDR"⟩) ∧
    classifyBudget 100000 (netSpendOf [⟨"outcome", 120000⟩]) "IDR" "Monthly" =
      (some (.exceeded 20000 100000 120000 "IDR"),
       ⟨"Monthly", 120000, 100000, 120, -20000, "IDR"⟩) := by
  refine ⟨fun B txs cur pl => ?_,
    by norm_num [classifyBudget, netSpendOf, spendTotals],
    by norm_num [classifyBudget, netSpendOf, spendTotals]⟩
  set S := netSpendOf txs with hS
  by_cases h0 : 0 < S <;> by_cases hBS : B < S <;>
    by_cases h90 : (90 : ℚ) ≤ S / B * 100 <;>
    simp [classifyBudget, h0, hBS, h90]

/-- Closed instance of `c1_budget_alert_classification`: the exceeded
characterisation applied at `B = 1` with one outcome transaction of
amount `2`. -/
theorem c1_budget_alert_classification_witness :
    (classifyBudget 1 (netSpendOf [⟨"outcome", 2⟩]) "IDR" "Daily").1 =
      some (.exceeded (netSpendOf [⟨"outcome", 2⟩] - 1) 1
        (max 0 (netSpendOf [⟨"outcome", 2⟩])) "IDR") :=
  ((c1_budget_alert_classification.1 1 [⟨"outcome", 2⟩] "IDR" "Daily").1).mpr
    (by norm_num [netSpendOf, spendTotals])

/-! ## Claim C10: budget evaluation gating -/

/-- C10.  Budget evaluation happens only for a saved `outcome`
transaction with a (truthy) registered internal user id: saving an
income transaction, or any transaction without a user id, returns the
inserted id with no budget info, regardless of what budgets the store
would report. -/
theorem c10_budget_eval_gating (o : InsertOracle) (p : TxParams)
    (u : Option String) (cid aid i : String)
    (hc : o.categoryId = .ok cid) (ha : o.accountId = .ok aid)
    (hi : o.insertId = .ok i) (h : p.type ≠ "outcome" ∨ u = none) :
    insertTransaction o p u = .ok ⟨i, none⟩ := by
  have hcond : ¬ (jsTruthyStr u = true ∧ p.type = "outcome") := by
    rcases h with h | h
    · exact fun hx => h hx.2
    · subst h; exact fun hx => by simpa [jsTruthyStr] using hx.1
  simp [insertTransaction, hc, ha, hi, hcond, Bind.bind, Except.bind, pure, Except.pure]

/-- Closed instance of `c10_budget_eval_gating`: an income transaction
with a registered user and a matching monthly budget configured still
returns no budget info. -/
theorem c10_budget_eval_gating_witness :
    insertTransaction
      ⟨.ok "cat1", .ok "acc1", .ok "tx42",
        ⟨.ok [⟨100000, "monthly", 0, none, "IDR"⟩], fun _ _ => .ok [⟨"outcome", 95000⟩]⟩⟩
      ⟨"income", 500000, "Salary", "BCA", 1756441800000, none⟩
      (some "user-1") = .ok ⟨"tx42", none⟩ :=
  c10_budget_eval_gating _ _ _ "cat1" "acc1" "tx42" rfl rfl rfl (.inl (by decide))

/-! ## Claim C6: budget evaluation failures never abort the save -/

/-- If every transactions query fails, each budget iteration
`continue`s. -/
theorem budgetStep_eq_none_of_txerr (o : BudgetOracle) (t : ℤ) (b : Budget)
    (h : ∀ s e, o.txsIn s e = .error ()) : budgetStep o t b = none := by
  unfold budgetStep
  cases hw : periodWindow b.period t with
  | none => rfl
  | some w =>
    obtain ⟨ps, pe⟩ := w
    split
    · rfl
    · simp [h]

/-- If every transactions query fails, the budget loop collects
nothing. -/
theorem budgetLoop_eq_nil_of_txerr (o : BudgetOracle) (t : ℤ)
    (h : ∀ s e, o.txsIn s e = .error ()) (bs : List Budget) :
    budgetLoop o t bs = ([], []) := by
  induction bs with
  | nil => rfl
  | cons b rest ih => simp [budgetLoop, ih, budgetStep_eq_none_of_txerr o t b h]

/-- C6.  If fetching the budgets fails, or every transactions query
during budget evaluation fails, the surrounding transaction save still
completes and returns the inserted id; the result carries no budget
information. -/
theorem c6_budget_failure_never_aborts_save (o : InsertOracle) (p : TxParams)
    (u : Option String) (cid aid i : String)
    (hc : o.categoryId = .ok cid) (ha : o.accountId = .ok aid)
    (hi : o.insertId = .ok i)
    (h : o.budget.budgets = .error () ∨ ∀ s e, o.budget.txsIn s e = .error ()) :
    insertTransaction o p u = .ok ⟨i, none⟩ := by
  have hcheck : ∀ st, checkBudgetStatus o.budget p.occurred_at = some st →
      st.alerts = none ∧ st.progress = none := by
    intro st hst
    rcases h with h | h
    · simp [checkBudgetStatus, h] at hst
    · unfold checkBudgetStatus at hst
      cases hb : o.budget.budgets with
      | error e => simp [hb] at hst
      | ok bs =>
        rw [hb] at hst
        by_cases hbs : bs.isEmpty
        · simp only [if_pos hbs, Option.some.injEq] at hst
          simp [← hst]
        · simp only [if_neg hbs, budgetLoop_eq_nil_of_txerr o.budget p.occurred_at h bs,
            Option.some.injEq] at hst
          simp [← hst]
  simp only [insertTransaction, hc, ha, hi]
  cases hchk : checkBudgetStatus o.budget p.occurred_at with
  | none => simp [hchk, Bind.bind, Except.bind, pure, Except.pure]
  | some st =>
    obtain ⟨ha1, hp1⟩ := hcheck st hchk
    simp [hchk, ha1, hp1, Bind.bind, Except.bind, pure, Except.pure]

/-- Closed instance of `c6_budget_failure_never_aborts_save`: a failing
budgets query leaves the save successful with no budget info. -/
theorem c6_budget_failure_never_aborts_save_witness :
    insertTransaction
      ⟨.ok "cat1", .ok "acc1", .ok "tx42", ⟨.error (), fun _ _ => .ok []⟩⟩
      ⟨"outcome", 75000, "Food", "BCA", 1756441800000, none⟩
      (some "user-1") = .ok ⟨"tx42", none⟩ :=
  c6_budget_failure_never_aborts_save _ _ _ "cat1" "acc1" "tx42" rfl rfl rfl
    (.inl rfl)

/-! ## Claim C3: invalid calendar fields in embedded timestamps -/

/-- C3 (code evaluation).  The spec requires timestamps with
out-of-range calendar fields to fail; the code instead inherits
`Date.UTC`'s wrapping: `"2025-13-01 10:00"` (month 13) parses
successfully to the instant `Date.UTC(2026, 0, 1, 10, 0) - 7h`
(2026-01-01T03:00:00Z), and the whole message containing it is saved
rather than rejected. -/
theorem c3_invalid_month_wraps_instead_of_failing :
    parseJakartaDate "2025-13-01 10:00".data = some 1767236400000 ∧
    1767236400000 = dateUTCms 2026 0 1 10 0 - 25200000 ∧
    parseMessage 0 "outcome 100 Food BCA [2025-13-01 10:00] x" =
      .ok ⟨"outcome", 100, "Food", "BCA", 1767236400000, some "x"⟩ := by
  refine ⟨?_, by decide, ?_⟩
  · simp +decide [parseJakartaDate, splitOnChar, jsNumOf, jsNumber, parseUnsigned,
      digitsVal, trimWs, isJsWs, truncQ_natCast]
  · simp +decide [parseMessage, parseMessageCore, clean, collapseWs, collapseWsAux,
      trimWs, readTok,
      typeOk, amountShape, amountValue, jsNumber, parseUnsigned, digitsVal,
      bracketSplit, bracketScan, descOf, capFirstWord, jsToLower, jsToUpper,
      isWordChar, isJsWs, Char.toLower, Char.toUpper, parseJakartaDate, splitOnChar,
      jsNumOf, truncQ_natCast]

/-! ## Claim C8: empty outcome report -/

/-- C8.  For an empty transaction list, `formatOutcomeReport` returns a
"no outcomes found for <period>" message, with the period rendered as
`YYYY` for a full-year query and as zero-padded `MM/YYYY` for a month
query; in particular `formatOutcomeReport [] {year := 2024, month := 1}`
yields "📊 No outcomes found for 01/2024". -/
theorem c8_empty_outcome_report :
    (∀ y m : ℤ, formatOutcomeReport [] ⟨y, m, true⟩ =
      "📊 No outcomes found for " ++ intToString y) ∧
    (∀ y m : ℤ, formatOutcomeReport [] ⟨y, m, false⟩ =
      "📊 No outcomes found for " ++
        String.mk (padStartL (intToString m).data 2 '0') ++ "/" ++ intToString y) ∧
    (∀ m : ℤ, 1 ≤ m → m ≤ 12 →
      padStartL (intToString m).data 2 '0' =
        [digitChar (m.toNat / 10), digitChar (m.toNat % 10)]) ∧
    formatOutcomeReport [] ⟨2024, 1, false⟩ = "📊 No outcomes found for 01/2024" := by
  refine ⟨fun y m => ?_, fun y m => ?_, fun m h1 h2 => ?_, by decide⟩
  · simp [formatOutcomeReport, periodString]
  · simp [formatOutcomeReport, periodString, String.append_assoc]
  · interval_cases m <;> decide

/-- Closed instance of `c8_empty_outcome_report`: the zero-padding
conjunct applied at month 9. -/
theorem c8_empty_outcome_report_witness :
    padStartL (intToString 9).data 2 '0' =
      [digitChar ((9 : ℤ).toNat / 10), digitChar ((9 : ℤ).toNat % 10)] :=
  c8_empty_outcome_report.2.2.1 9 (by decide) (by decide)


/-! ## Claim C9: pending-confirmation cache -/

/-- Filtering preserves key uniqueness. -/
theorem nodup_keys_filter (p : String × PendingEntry → Bool) (c : Cache)
    (h : (c.map Prod.fst).Nodup) : ((c.filter p).map Prod.fst).Nodup :=
  h.sublist ((List.filter_sublist c).map Prod.fst)

/-- `Map.set` preserves key uniqueness. -/
theorem nodup_keys_mapSet (k : String) (v : PendingEntry) (c : Cache)
    (h : (c.map Prod.fst).Nodup) : ((mapSet k v c).map Prod.fst).Nodup := by
  unfold mapSet
  split
  · have heq : (c.map (fun p => if p.1 = k then (k, v) else p)).map Prod.fst =
        c.map Prod.fst := by
      rw [List.map_map]
      refine List.map_congr_left (fun p _ => ?_)
      by_cases hp : p.1 = k <;> simp [hp]
    rw [heq]; exact h
  · next hany =>
      have hk : k ∉ c.map Prod.fst := by
        simp only [List.any_eq_true, decide_eq_true_eq, not_exists, not_and] at hany
        simp only [List.mem_map, not_exists, not_and]
        intro p hp hfst
        exact hany p hp hfst
      simp [List.nodup_append, h, hk]

/-- C9.  The pending-confirmation cache keeps at most one entry per
chat id (its key list stays duplicate-free along every reachable
handler history); an entry whose stored timestamp is more than five
minutes old is discarded by the cleanup that runs at the start of
handling the next inbound event; every entry surviving that cleanup is
at most five minutes old; hence the entry a handler invocation consults
to confirm a transaction is never stale. -/
theorem c9_cache_expiry_and_uniqueness :
    (∀ c, CacheReachable c → (c.map Prod.fst).Nodup) ∧
    (∀ (now : ℤ) (c : Cache) (p : String × PendingEntry), p ∈ c →
      p.2.timestamp < now - fiveMinutesMs →
      p ∉ cleanupOldConfirmations now c) ∧
    (∀ (now : ℤ) (c : Cache) (p : String × PendingEntry),
      p ∈ cleanupOldConfirmations now c → now - p.2.timestamp ≤ fiveMinutesMs) ∧
    (∀ (now : ℤ) (chatId : String) (ev : InboundEvent) (ok : Bool) (c : Cache)
      (e : PendingEntry), (handleEvent now chatId ev ok c).2 = some e →
      now - e.timestamp ≤ fiveMinutesMs) := by
  have hclean : ∀ (now : ℤ) (c : Cache) (p : String × PendingEntry),
      p ∈ cleanupOldConfirmations now c → now - p.2.timestamp ≤ fiveMinutesMs := by
    intro now c p hp
    simp only [cleanupOldConfirmations, List.mem_filter, decide_eq_true_eq] at hp
    omega
  refine ⟨?_, ?_, hclean, ?_⟩
  · intro c h
    induction h with
    | init => simp
    | step now chatId ev ok hc ih =>
      have hcleanNodup : ((cleanupOldConfirmations now _).map Prod.fst).Nodup :=
        nodup_keys_filter _ _ ih
      cases ev with
      | photo t => exact nodup_keys_mapSet _ _ _ hcleanNodup
      | text s =>
        simp only [handleEvent]
        split
        · split_ifs <;>
            first
              | exact nodup_keys_filter _ _ hcleanNodup
              | exact hcleanNodup
        · exact hcleanNodup
  · intro now c p hp hold
    simp only [cleanupOldConfirmations, List.mem_filter, decide_eq_true_eq]
    intro hmem
    omega
  · intro now chatId ev ok c e h
    cases ev with
    | photo t => simp [handleEvent] at h
    | text s =>
      simp only [handleEvent] at h
      split at h
      · next e' hget =>
          have hee : e' = e := by split_ifs at h <;> simp_all
          subst hee
          obtain ⟨p, hfind, hsnd⟩ : ∃ p, (cleanupOldConfirmations now c).find?
              (·.1 = chatId) = some p ∧ p.2 = e' := by
            simpa [mapGet, Option.map_eq_some'] using hget
          have hmem := List.mem_of_find?_eq_some hfind
          have h5 := hclean now c p hmem
          rw [hsnd] at h5
          omega
      · simp at h

/-- Closed instance of `c9_cache_expiry_and_uniqueness`: a confirmation
entry consulted by a `yes` reply thirty seconds after a photo was
processed is within the five-minute window. -/
theorem c9_cache_expiry_and_uniqueness_witness :
    (600000 : ℤ) - (570000 : ℤ) ≤ fiveMinutesMs :=
  c9_cache_expiry_and_uniqueness.2.2.2 600000 "chat1" (.text "yes") true
    [("chat1", ⟨"outcome 75000 Food BCA", 570000, none⟩)]
    ⟨"outcome 75000 Food BCA", 570000, none⟩ (by decide)

/-! ## Claim C4: local-timestamp to UTC conversion -/

theorem digitChar_isDigit {k : ℕ} (h : k ≤ 9) : (digitChar k).isDigit = true := by
  interval_cases k <;> decide

theorem digitChar_toNat {k : ℕ} (h : k ≤ 9) : (digitChar k).toNat = 48 + k := by
  interval_cases k <;> decide

theorem digitsValN_pad2 {n : ℕ} (h : n < 100) : digitsValN (pad2 n) = n := by
  have h1 : n / 10 ≤ 9 := by omega
  have h2 : n % 10 ≤ 9 := by omega
  simp only [digitsValN, pad2, List.foldl_cons, List.foldl_nil,
    digitChar_toNat h1, digitChar_toNat h2]
  omega

theorem digitsValN_pad4 {n : ℕ} (h : n < 10000) : digitsValN (pad4 n) = n := by
  have h1 : n / 1000 ≤ 9 := by omega
  have h2 : n / 100 % 10 ≤ 9 := by omega
  have h3 : n / 10 % 10 ≤ 9 := by omega
  have h4 : n % 10 ≤ 9 := by omega
  simp only [digitsValN, pad4, List.foldl_cons, List.foldl_nil,
    digitChar_toNat h1, digitChar_toNat h2, digitChar_toNat h3, digitChar_toNat h4]
  omega

theorem pad2_digits {n : ℕ} (h : n < 100) : ∀ c ∈ pad2 n, c.isDigit = true := by
  intro c hc
  simp only [pad2, List.mem_cons, List.mem_singleton, List.not_mem_nil, or_false] at hc
  rcases hc with rfl | rfl
  · exact digitChar_isDigit (by omega)
  · exact digitChar_isDigit (by omega)

theorem pad4_digits {n : ℕ} (h : n < 10000) : ∀ c ∈ pad4 n, c.isDigit = true := by
  intro c hc
  simp only [pad4, List.mem_cons, List.mem_singleton, List.not_mem_nil, or_false] at hc
  rcases hc with rfl | rfl | rfl | rfl <;> exact digitChar_isDigit (by omega)

theorem dropWhile_eq_self_of_forall {p : Char → Bool} {l : List Char}
    (h : ∀ c ∈ l, p c = false) : l.dropWhile p = l := by
  cases l with
  | nil => rfl
  | cons c rest => simp [List.dropWhile_cons, h c (List.mem_cons_self c rest)]

theorem trimWs_eq_self_of_forall {l : List Char}
    (h : ∀ c ∈ l, isJsWs c = false) : trimWs l = l := by
  unfold trimWs
  rw [dropWhile_eq_self_of_forall h,
    dropWhile_eq_self_of_forall (by intro c hc; exact h c (by simpa using hc)),
    List.reverse_reverse]

theorem takeWhile_eq_self_of_forall {p : Char → Bool} {l : List Char}
    (h : ∀ c ∈ l, p c = true) : l.takeWhile p = l := by
  induction l with
  | nil => rfl
  | cons c rest ih =>
    simp [List.takeWhile_cons, h c (List.mem_cons_self c rest),
      ih (fun x hx => h x (List.mem_cons_of_mem c hx))]

theorem dropWhile_eq_nil_of_forall {p : Char → Bool} {l : List Char}
    (h : ∀ c ∈ l, p c = true) : l.dropWhile p = [] := by
  induction l with
  | nil => rfl
  | cons c rest ih =>
    simp [List.dropWhile_cons, h c (List.mem_cons_self c rest),
      ih (fun x hx => h x (List.mem_cons_of_mem c hx))]

theorem span_eq_self_of_forall {p : Char → Bool} {l : List Char}
    (h : ∀ c ∈ l, p c = true) : l.span p = (l, []) := by
  rw [List.span_eq_take_drop, takeWhile_eq_self_of_forall h, dropWhile_eq_nil_of_forall h]

theorem isDigit_not_ws {c : Char} (h : c.isDigit = true) : isJsWs c = false := by
  have h6 : c ≠ ' ' ∧ c ≠ '\t' ∧ c ≠ '\n' ∧ c ≠ '\r' ∧ c ≠ '\x0b' ∧ c ≠ '\x0c' := by
    refine ⟨?_, ?_, ?_, ?_, ?_, ?_⟩ <;> rintro rfl <;> exact absurd h (by decide)
  simp [isJsWs, h6.1, h6.2.1, h6.2.2.1, h6.2.2.2.1, h6.2.2.2.2.1, h6.2.2.2.2.2]

theorem jsNumber_digits {l : List Char} (h0 : l ≠ [])
    (h : ∀ c ∈ l, c.isDigit = true) : jsNumber l = some ((digitsValN l : ℚ)) := by
  have htrim : trimWs l = l :=
    trimWs_eq_self_of_forall (fun c hc => isDigit_not_ws (h c hc))
  have hpu : parseUnsigned l = some ((digitsValN l : ℚ)) := by
    unfold parseUnsigned
    rw [span_eq_self_of_forall h]
    simp [h0, digitsVal]
  cases l with
  | nil => exact absurd rfl h0
  | cons c rest =>
    have hd : c.isDigit = true := h c (List.mem_cons_self c rest)
    have hc1 : c ≠ '-' := by rintro rfl; exact absurd hd (by decide)
    have hc2 : c ≠ '+' := by rintro rfl; exact absurd hd (by decide)
    unfold jsNumber
    rw [htrim]
    simp [hc1, hc2, hpu]

theorem splitOnChar_not_mem {sep : Char} {l : List Char} (h : sep ∉ l) :
    splitOnChar sep l = [l] := by
  induction l with
  | nil => rfl
  | cons c rest ih =>
    have hc : c ≠ sep := fun hc => h (hc ▸ List.mem_cons_self c rest)
    have hr : sep ∉ rest := fun hr => h (List.mem_cons_of_mem c hr)
    simp [splitOnChar, ih hr, hc]

theorem splitOnChar_ne_nil (sep : Char) (l : List Char) : splitOnChar sep l ≠ [] := by
  cases l with
  | nil => simp [splitOnChar]
  | cons c rest =>
    unfold splitOnChar
    cases hs : splitOnChar sep rest <;> by_cases hc : c = sep <;> simp [hc]

theorem splitOnChar_append {sep : Char} {a b : List Char} (h : sep ∉ a) :
    splitOnChar sep (a ++ sep :: b) = a :: splitOnChar sep b := by
  induction a with
  | nil =>
    simp only [List.nil_append]
    rw [splitOnChar]
    cases hb : splitOnChar sep b with
    | nil => exact absurd hb (splitOnChar_ne_nil sep b)
    | cons x xs => simp
  | cons c rest ih =>
    have hc : c ≠ sep := fun hc => h (hc ▸ List.mem_cons_self c rest)
    have hr : sep ∉ rest := fun hr => h (List.mem_cons_of_mem c hr)
    simp only [List.cons_append, splitOnChar, List.append_eq, ih hr, if_neg hc]

theorem fdiv_fmod_of_lt (a : ℤ) (h1 : 0 ≤ a) (h2 : a < 12) :
    a.fdiv 12 = 0 ∧ a.fmod 12 = a := by
  have h3 := Int.fdiv_add_fmod a 12
  have h4 : a.fmod 12 = a % 12 := Int.fmod_eq_emod a (by norm_num)
  have h5 : 0 ≤ a % 12 := Int.emod_nonneg a (by norm_num)
  have h6 : a % 12 < 12 := Int.emod_lt_of_pos a (by norm_num)
  omega

theorem daysFromCivil_day_linear (y m d : ℤ) :
    daysFromCivil y m 1 + (d - 1) = daysFromCivil y m d := by
  simp only [daysFromCivil]
  ring

theorem dateUTCms_valid {y m d hh mm : ℤ} (hy : 100 ≤ y) (hm1 : 1 ≤ m)
    (hm2 : m ≤ 12) : dateUTCms y (m - 1) d hh mm = naiveUtcMs y m d hh mm := by
  obtain ⟨hq, hr⟩ := fdiv_fmod_of_lt (m - 1) (by omega) (by omega)
  simp only [dateUTCms, naiveUtcMs, hq, hr]
  rw [if_neg (by omega)]
  rw [show y + 0 = y by ring, show m - 1 + 1 = m by ring]
  linear_combination msPerDay * daysFromCivil_day_linear y m d

theorem not_mem_of_all_digits {c : Char} {l : List Char}
    (hall : ∀ x ∈ l, x.isDigit = true) (hc : c.isDigit = false) : c ∉ l :=
  fun hmem => by simp [hall c hmem] at hc

theorem parseJakartaDate_render_valid (y m d hh mm : ℕ) (hy1 : 1000 ≤ y) (hy2 : y ≤ 9999)
    (hm1 : 1 ≤ m) (hm2 : m ≤ 12) (hd1 : 1 ≤ d) (hd2 : d ≤ 31)
    (hhh : hh ≤ 23) (hmm2 : mm ≤ 59) :
    parseJakartaDate (renderTimestamp y m d hh mm) =
      some (naiveUtcMs y m d hh mm - 25200000) := by
  have hy4 : ∀ x ∈ pad4 y, x.isDigit = true := pad4_digits (by omega)
  have hmp : ∀ x ∈ pad2 m, x.isDigit = true := pad2_digits (by omega)
  have hdp : ∀ x ∈ pad2 d, x.isDigit = true := pad2_digits (by omega)
  have hhp : ∀ x ∈ pad2 hh, x.isDigit = true := pad2_digits (by omega)
  have hmmp : ∀ x ∈ pad2 mm, x.isDigit = true := pad2_digits (by omega)
  have hy4d : ('-' : Char) ∉ pad4 y := not_mem_of_all_digits hy4 (by decide)
  have hmpd : ('-' : Char) ∉ pad2 m := not_mem_of_all_digits hmp (by decide)
  have hdpd : ('-' : Char) ∉ pad2 d := not_mem_of_all_digits hdp (by decide)
  have hhpc : (':' : Char) ∉ pad2 hh := not_mem_of_all_digits hhp (by decide)
  have hmmpc : (':' : Char) ∉ pad2 mm := not_mem_of_all_digits hmmp (by decide)
  have hsp1 : (' ' : Char) ∉ pad4 y ++ ('-' :: (pad2 m ++ ('-' :: pad2 d))) := by
    intro hmem
    rcases List.mem_append.mp hmem with h | h
    · exact not_mem_of_all_digits hy4 (by decide) h
    · rcases List.mem_cons.mp h with h | h
      · exact absurd h (by decide)
      · rcases List.mem_append.mp h with h | h
        · exact not_mem_of_all_digits hmp (by decide) h
        · rcases List.mem_cons.mp h with h | h
          · exact absurd h (by decide)
          · exact not_mem_of_all_digits hdp (by decide) h
  have hsp2 : (' ' : Char) ∉ pad2 hh ++ (':' :: pad2 mm) := by
    intro hmem
    rcases List.mem_append.mp hmem with h | h
    · exact not_mem_of_all_digits hhp (by decide) h
    · rcases List.mem_cons.mp h with h | h
      · exact absurd h (by decide)
      · exact not_mem_of_all_digits hmmp (by decide) h
  have hsplit1 : splitOnChar ' ' (renderTimestamp y m d hh mm) =
      [pad4 y ++ ('-' :: (pad2 m ++ ('-' :: pad2 d))), pad2 hh ++ (':' :: pad2 mm)] := by
    rw [show renderTimestamp y m d hh mm
        = (pad4 y ++ ('-' :: (pad2 m ++ ('-' :: pad2 d)))) ++
            (' ' :: (pad2 hh ++ (':' :: pad2 mm))) from by
      simp [renderTimestamp]]
    rw [splitOnChar_append hsp1, splitOnChar_not_mem hsp2]
  have hsplit2 : splitOnChar '-' (pad4 y ++ ('-' :: (pad2 m ++ ('-' :: pad2 d)))) =
      [pad4 y, pad2 m, pad2 d] := by
    rw [splitOnChar_append hy4d, splitOnChar_append hmpd, splitOnChar_not_mem hdpd]
  have hsplit3 : splitOnChar ':' (pad2 hh ++ (':' :: pad2 mm)) = [pad2 hh, pad2 mm] := by
    rw [splitOnChar_append hhpc, splitOnChar_not_mem hmmpc]
  have hne2 : ∀ n : ℕ, pad2 n ≠ [] := fun n => by simp [pad2]
  have hne4 : pad4 y ≠ [] := by simp [pad4]
  have hy2' : jsNumber (pad4 y) = some ((y : ℚ)) := by
    rw [jsNumber_digits hne4 hy4, digitsValN_pad4 (by omega)]
  have hm2' : jsNumber (pad2 m) = some ((m : ℚ)) := by
    rw [jsNumber_digits (hne2 m) hmp, digitsValN_pad2 (by omega)]
  have hd2' : jsNumber (pad2 d) = some ((d : ℚ)) := by
    rw [jsNumber_digits (hne2 d) hdp, digitsValN_pad2 (by omega)]
  have hh2' : jsNumber (pad2 hh) = some ((hh : ℚ)) := by
    rw [jsNumber_digits (hne2 hh) hhp, digitsValN_pad2 (by omega)]
  have hmm2' : jsNumber (pad2 mm) = some ((mm : ℚ)) := by
    rw [jsNumber_digits (hne2 mm) hmmp, digitsValN_pad2 (by omega)]
  unfold parseJakartaDate
  rw [hsplit1]
  simp only [List.headD, List.get?, jsNumOf, hsplit2, hsplit3, hy2', hm2', hd2', hh2', hmm2',
    Option.bind_eq_bind, Option.some_bind, truncQ_natCast]
  rw [dateUTCms_valid (by omega) (by omega) (by omega)]
  norm_num [Option.pure_def]

/-- C4.  For every valid local timestamp `"YYYY-MM-DD HH:MM"`,
`parseJakartaDate` returns the UTC instant obtained by building the
naive instant from the fields and subtracting exactly seven hours; in
particular `"2025-08-29 11:30"` yields 2025-08-29T04:30:00Z. -/
theorem c4_jakarta_offset :
    (∀ y m d hh mm : ℕ, 1000 ≤ y → y ≤ 9999 → 1 ≤ m → m ≤ 12 → 1 ≤ d → d ≤ 31 →
      hh ≤ 23 → mm ≤ 59 →
      parseJakartaDate (renderTimestamp y m d hh mm) =
        some (naiveUtcMs y m d hh mm - 25200000)) ∧
    renderTimestamp 2025 8 29 11 30 = "2025-08-29 11:30".data ∧
    parseJakartaDate "2025-08-29 11:30".data = some (naiveUtcMs 2025 8 29 4 30) := by
  refine ⟨fun y m d hh mm h1 h2 h3 h4 h5 h6 h7 h8 =>
      parseJakartaDate_render_valid y m d hh mm h1 h2 h3 h4 h5 h6 h7 h8, by decide, ?_⟩
  have h := parseJakartaDate_render_valid 2025 8 29 11 30 (by omega) (by omega)
    (by omega) (by omega) (by omega) (by omega) (by omega) (by omega)
  rw [show renderTimestamp 2025 8 29 11 30 = "2025-08-29 11:30".data from by decide] at h
  rw [h]
  norm_num
  decide

/-- Closed instance of `c4_jakarta_offset`: the universal conversion
applied at the fields of 2025-08-29 11:30. -/
theorem c4_jakarta_offset_witness :
    parseJakartaDate (renderTimestamp 2025 8 29 11 30) =
      some (naiveUtcMs 2025 8 29 11 30 - 25200000) :=
  c4_jakarta_offset.1 2025 8 29 11 30 (by decide) (by decide) (by decide)
    (by decide) (by decide) (by decide) (by decide) (by decide)

/-! ## Claim C5: summary month ranges -/

theorem fdiv_fmod_mul_add (y r : ℤ) (h1 : 0 ≤ r) (h2 : r < 12) :
    (12 * y + r).fdiv 12 = y ∧ (12 * y + r).fmod 12 = r := by
  have h3 := Int.fdiv_add_fmod (12 * y + r) 12
  have h4 : (12 * y + r).fmod 12 = (12 * y + r) % 12 :=
    Int.fmod_eq_emod _ (by norm_num)
  have h5 : 0 ≤ (12 * y + r) % 12 := Int.emod_nonneg _ (by norm_num)
  have h6 : (12 * y + r) % 12 < 12 := Int.emod_lt_of_pos _ (by norm_num)
  omega

theorem ymOfIndex_monthIndex {y m : ℤ} (h1 : 1 ≤ m) (h2 : m ≤ 12) :
    ymOfIndex (monthIndex y m) = ⟨y, m⟩ := by
  obtain ⟨hq, hr⟩ := fdiv_fmod_mul_add y (m - 1) (by omega) (by omega)
  simp only [ymOfIndex, monthIndex, hq, hr]
  congr 1
  omega

theorem inclusiveMonths_step (y m y' m' ey em : ℤ) (hm1 : 1 ≤ m) (hm2 : m ≤ 12)
    (hem1 : 1 ≤ em) (hem2 : em ≤ 12)
    (hcond : y < ey ∨ (y = ey ∧ m ≤ em))
    (hnext : monthIndex y' m' = monthIndex y m + 1) :
    inclusiveMonths y m ey em = ⟨y, m⟩ :: inclusiveMonths y' m' ey em := by
  have hle : monthIndex y m ≤ monthIndex ey em := by
    unfold monthIndex at *
    omega
  unfold inclusiveMonths
  rw [show (monthIndex ey em - monthIndex y m + 1).toNat
      = (monthIndex ey em - monthIndex y' m' + 1).toNat + 1 from by omega]
  rw [List.range_succ_eq_map, List.map_cons, List.map_map]
  congr 1
  · rw [show monthIndex y m + ((0 : ℕ) : ℤ) = monthIndex y m from by push_cast; ring]
    exact ymOfIndex_monthIndex hm1 hm2
  · refine List.map_congr_left (fun i _ => ?_)
    simp only [Function.comp_apply]
    congr 1
    push_cast
    omega

theorem inclusiveMonths_nil {y m ey em : ℤ} (hm1 : 1 ≤ m) (hem2 : em ≤ 12)
    (hcond : ¬ (y < ey ∨ (y = ey ∧ m ≤ em))) :
    inclusiveMonths y m ey em = [] := by
  unfold inclusiveMonths
  rw [show (monthIndex ey em - monthIndex y m + 1).toNat = 0 from by
    unfold monthIndex at *; omega]
  rfl

theorem rangeLoop_eq_take (ey em : ℤ) (hem1 : 1 ≤ em) (hem2 : em ≤ 12) :
    ∀ (k : ℕ) (y m : ℤ) (acc : List YM), 1 ≤ m → m ≤ 12 → acc.length ≤ 24 →
      k = 25 - acc.length →
      rangeLoop ey em y m acc =
        acc ++ (inclusiveMonths y m ey em).take (25 - acc.length) := by
  intro k
  induction k using Nat.strong_induction_on with
  | _ k ih =>
    intro y m acc hm1 hm2 hlen hk
    unfold rangeLoop
    by_cases hcond : y < ey ∨ (y = ey ∧ m ≤ em)
    · rw [if_pos hcond]
      by_cases hwrap : 12 < m + 1
      · have hm12 : m = 12 := by omega
        subst hm12
        rw [inclusiveMonths_step y 12 (y + 1) 1 ey em (by omega) (by omega)
          hem1 hem2 hcond (by unfold monthIndex; ring)]
        by_cases hfull : 24 < (acc ++ [(⟨y, 12⟩ : YM)]).length
        · rw [if_pos hfull]
          simp only [List.length_append, List.length_cons, List.length_nil] at hfull
          have h25 : 25 - acc.length = 1 := by omega
          rw [h25]
          simp
        · rw [if_neg hfull, if_pos (by norm_num)]
          simp only [List.length_append, List.length_cons, List.length_nil] at hfull
          rw [ih (25 - (acc.length + 1)) (by omega) (y + 1) 1 (acc ++ [(⟨y, 12⟩ : YM)])
            (by omega) (by omega) (by simp; omega) (by simp)]
          rw [show 25 - acc.length = (25 - (acc.length + 1)) + 1 from by omega]
          rw [List.take_succ_cons]
          simp
      · rw [inclusiveMonths_step y m y (m + 1) ey em hm1 hm2
          hem1 hem2 hcond (by unfold monthIndex; ring)]
        by_cases hfull : 24 < (acc ++ [(⟨y, m⟩ : YM)]).length
        · rw [if_pos hfull]
          simp only [List.length_append, List.length_cons, List.length_nil] at hfull
          have h25 : 25 - acc.length = 1 := by omega
          rw [h25]
          simp
        · rw [if_neg hfull, if_neg hwrap]
          simp only [List.length_append, List.length_cons, List.length_nil] at hfull
          rw [ih (25 - (acc.length + 1)) (by omega) y (m + 1) (acc ++ [(⟨y, m⟩ : YM)])
            (by omega) (by omega) (by simp; omega) (by simp)]
          rw [show 25 - acc.length = (25 - (acc.length + 1)) + 1 from by omega]
          rw [List.take_succ_cons]
          simp
    · rw [if_neg hcond, inclusiveMonths_nil hm1 hem2 hcond]
      simp

theorem monthNameVal_range {k : String} {m : ℤ}
    (h : monthNameVal k = some m) : 1 ≤ m ∧ m ≤ 12 := by
  unfold monthNameVal at h
  obtain ⟨p, hf, hp⟩ := Option.map_eq_some'.mp h
  have hmem := List.mem_of_find?_eq_some hf
  have hall : ∀ p ∈ monthMap, 1 ≤ p.2 ∧ p.2 ≤ 12 := by decide
  have := hall p hmem
  omega

theorem parseMonthName_range {s : List Char} {m : ℤ}
    (h : parseMonthName s = some m) : 1 ≤ m ∧ m ≤ 12 :=
  monthNameVal_range h

theorem parseSummaryDateInput_range (nowYM : YM) (input : List Char)
    (w1 y1s w2 y2s : List Char) (sm em : ℤ)
    (h0 : input ≠ []) (h1 : input.map jsToLower ≠ "today".data)
    (hr : rangeMatch input = some (w1, y1s, w2, y2s))
    (hw1 : parseMonthName w1 = some sm) (hw2 : parseMonthName w2 = some em)
    (hy1 : 2000 ≤ digitsIntVal y1s) (hy2 : 2000 ≤ digitsIntVal y2s) :
    parseSummaryDateInput nowYM input =
      some ((inclusiveMonths (digitsIntVal y1s) sm (digitsIntVal y2s) em).take 25) := by
  obtain ⟨hsm1, hsm2⟩ := parseMonthName_range hw1
  obtain ⟨hem1, hem2⟩ := parseMonthName_range hw2
  unfold parseSummaryDateInput
  rw [if_neg (by simp [h0, h1, List.isEmpty_iff])]
  simp only [rangeBranch, hr, hw1, hw2]
  rw [if_pos ⟨hy1, hy2⟩]
  rw [rangeLoop_eq_take (digitsIntVal y2s) em hem1 hem2 25 (digitsIntVal y1s) sm []
    hsm1 hsm2 (by simp) (by simp)]
  simp

/-- C5 (counterexample).  The claim caps the range result at 24
entries, but the `months.length > 24` safety break runs after the
push, so a long range ("jan 2025 - dec 2027", 36 months) yields
25 entries. -/
theorem c5_range_cap_counterexample :
    (parseSummaryDateInput ⟨2025, 1⟩ "jan 2025 - dec 2027".data).map List.length =
      some 25 ∧ ¬ (25 ≤ 24) := by
  refine ⟨?_, by omega⟩
  rw [parseSummaryDateInput_range ⟨2025, 1⟩ _ "jan".data "2025".data "dec".data
    "2027".data 1 12 (by decide) (by decide) (by decide) (by decide) (by decide)
    (by decide) (by decide)]
  decide

/-- C5 (amended).  For every summary range expression of two month-year
terms joined by a hyphen or en-dash (start month name, four-digit start
year ≥ 2000, end month name, four-digit end year ≥ 2000),
`parseSummaryDateInput` returns the inclusive sequence of consecutive
`(year, month)` pairs from the start month to the end month, truncated
to its first 25 entries (so ranges spanning at most 25 months are
returned in full, and the result never exceeds 25 entries); in
particular "Sept 2025 - Oct 2025" yields exactly
`[{2025, 9}, {2025, 10}]`. -/
theorem c5_summary_range_amended :
    (∀ (nowYM : YM) (input : List Char) (w1 y1s w2 y2s : List Char) (sm em : ℤ),
      input ≠ [] → input.map jsToLower ≠ "today".data →
      rangeMatch input = some (w1, y1s, w2, y2s) →
      parseMonthName w1 = some sm → parseMonthName w2 = some em →
      2000 ≤ digitsIntVal y1s → 2000 ≤ digitsIntVal y2s →
      parseSummaryDateInput nowYM input =
        some ((inclusiveMonths (digitsIntVal y1s) sm (digitsIntVal y2s) em).take 25)) ∧
    (∀ nowYM, parseSummaryDateInput nowYM "Sept 2025 - Oct 2025".data =
      some [⟨2025, 9⟩, ⟨2025, 10⟩]) := by
  refine ⟨parseSummaryDateInput_range, fun nowYM => ?_⟩
  rw [parseSummaryDateInput_range nowYM _ "Sept".data "2025".data "Oct".data
    "2025".data 9 10 (by decide) (by decide) (by decide) (by decide) (by decide)
    (by decide) (by decide)]
  decide

/-- Closed instance of `c5_summary_range_amended`: the universal range
conjunct applied to "Sept 2025 - Oct 2025" with a fixed current
month. -/
theorem c5_summary_range_amended_witness :
    parseSummaryDateInput ⟨2024, 6⟩ "Sept 2025 - Oct 2025".data =
      some ((inclusiveMonths (digitsIntVal "2025".data) 9
        (digitsIntVal "2025".data) 10).take 25) :=
  c5_summary_range_amended.1 ⟨2024, 6⟩ _ "Sept".data "2025".data "Oct".data
    "2025".data 9 10 (by decide) (by decide) (by decide) (by decide) (by decide)
    (by decide) (by decide)

/-! ## Claim C2: parser round-trip -/

/-- Reading one token of a space-separated concatenation. -/
theorem readTok_append {t r : List Char} (h : ' ' ∉ t) :
    readTok (t ++ ' ' :: r) = (t, r) := by
  induction t with
  | nil => simp [readTok]
  | cons c ts ih =>
    have hc : c ≠ ' ' := fun hc => h (hc ▸ List.mem_cons_self c ts)
    have hts : ' ' ∉ ts := fun hm => h (List.mem_cons_of_mem c hm)
    simp [readTok, hc, ih hts]

/-- C2 (counterexample).  The claim's lossless round-trip fails: for
the in-grammar line `"Outcome 75.5 Food BCA hello"` the parser returns
type `"outcome"` (not the token `"Outcome"`) and amount `755` (the
`'.'` is stripped as a grouping character, not read as a decimal
separator). -/
theorem c2_roundtrip_counterexample :
    parseMessage 0 "Outcome 75.5 Food BCA hello" =
      .ok ⟨"outcome", 755, "Food", "BCA", 0, some "hello"⟩ ∧
    ("outcome" : String) ≠ "Outcome" ∧ (755 : ℚ) ≠ 75.5 := by
  refine ⟨?_, by decide, by norm_num⟩
  simp +decide [parseMessage, parseMessageCore, clean, collapseWs, collapseWsAux,
    trimWs, readTok, typeOk, amountShape, amountValue, jsNumber, parseUnsigned,
    digitsVal, bracketSplit, descOf, capFirstWord, jsToLower, jsToUpper, isWordChar,
    isJsWs, Char.toLower, Char.toUpper]

/-- C2 (amended).  For every clean input line
`"<type> <amount> <category> <account> <desc>"` of the plain-description
production (single separating spaces; a case-insensitive
`income`/`outcome` type token; an amount token of shape
`\d+([.,]\d{1,2})?`; space-free category and account tokens; a
non-empty description that does not open a bracketed timestamp),
`parseMessage` succeeds and returns: the type token lower-cased, the
numeric value of the amount token with every `'.'` stripped and `','`
read as a decimal point (so plain-integer and `','`-decimal amounts
round-trip exactly), the category token normalized to a leading
upper-case word character with the rest lower-cased, and the account
and description tokens unchanged. -/
theorem c2_parse_roundtrip_amended (now : ℤ) (x : String)
    (T A C AC D : List Char) (q : ℚ)
    (hx : clean x.data = T ++ (' ' :: (A ++ (' ' :: (C ++ (' ' :: (AC ++ (' ' :: D))))))))
    (hT : T.map jsToLower = "income".data ∨ T.map jsToLower = "outcome".data)
    (hA : amountShape A = true)
    (hq : amountValue A = some q) (hq0 : 0 ≤ q)
    (hTs : ' ' ∉ T) (hAs : ' ' ∉ A)
    (hC1 : C ≠ []) (hC2 : ' ' ∉ C) (hC3 : trimWs C = C)
    (hAC1 : AC ≠ []) (hAC2 : ' ' ∉ AC) (hAC3 : trimWs AC = AC)
    (hD1 : D ≠ []) (hD2 : trimWs D = D) (hD3 : D.head? ≠ some '[') :
    parseMessage now x = .ok ⟨String.mk (T.map jsToLower), q,
      String.mk (capFirstWord (C.map jsToLower)), String.mk AC, now,
      some (String.mk D)⟩ := by
  have htype : typeOk T = true := by
    unfold typeOk
    rcases hT with h | h <;> simp [h]
  unfold parseMessage
  rw [hx]
  unfold parseMessageCore
  simp only [readTok_append hTs, readTok_append hAs, readTok_append hC2,
    readTok_append hAC2]
  rw [if_pos (by simp [htype, hA, hC1, hAC1, List.isEmpty_iff])]
  simp only [hq]
  rw [if_neg (not_lt.mpr hq0)]
  rcases D with _ | ⟨c, tail⟩
  · exact absurd rfl hD1
  · have hc : ¬ (c = '[') := by
      intro hc
      exact hD3 (by simp [hc])
    simp only [bracketSplit, if_neg hc]
    simp only [descOf, hC3, hAC3, hD2]
    rw [if_neg (by simp [hD2])]

/-- Closed instance of `c2_parse_roundtrip_amended`: the claim's own
example `"outcome 75000 Food BCA Lunch at warung"`. -/
theorem c2_parse_roundtrip_amended_witness :
    parseMessage 0 "outcome 75000 Food BCA Lunch at warung" =
      .ok ⟨"outcome", 75000, "Food", "BCA", 0, some "Lunch at warung"⟩ := by
  have h := c2_parse_roundtrip_amended 0 "outcome 75000 Food BCA Lunch at warung"
    "outcome".data "75000".data "Food".data "BCA".data "Lunch at warung".data 75000
    (by decide) (.inr (by decide)) (by decide)
    (by simp +decide [amountValue, jsNumber, parseUnsigned, digitsVal, trimWs, isJsWs])
    (by norm_num) (by decide) (by decide) (by decide) (by decide) (by decide)
    (by decide) (by decide) (by decide) (by decide) (by decide) (by decide)
  simpa +decide [jsToLower, jsToUpper, capFirstWord, isWordChar, Char.toLower,
    Char.toUpper] using h

/-! ## Claim C7: amount parsing -/

/-- C7 (counterexample).  The claim says an amount with a `'.'`
thousands group before a `','` decimal, such as `"1.234,56"`, is
stripped and parsed to the intended value; in fact the amount pattern
`\d+([.,]\d{1,2})?` never matches such a token, so the whole message is
rejected with the format error. -/
theorem c7_thousands_grouping_counterexample :
    parseMessage 0 "outcome 1.234,56 Food BCA lunch" = .error formatErrMsg := by
  simp +decide [parseMessage, parseMessageCore, clean, collapseWs, collapseWsAux,
    trimWs, readTok, typeOk, amountShape, amountValue, jsNumber, parseUnsigned,
    digitsVal, bracketSplit, descOf, capFirstWord, jsToLower, jsToUpper, isWordChar,
    isJsWs, Char.toLower, Char.toUpper, formatErrMsg]

/-- C7 (amended).  The parser accepts an amount written as plain digits
with an optional single `'.'` or `','` followed by one or two digits;
a `','` is read as the decimal separator (`"75,5"` parses to `75.5`),
while every `'.'` is stripped as a grouping character (`"75.50"`
parses to `7550`); an amount containing both separators such as
`"1.234,56"` is rejected by the grammar; and for every input, the
parsed amount is a (finite) non-negative rational or parsing fails. -/
theorem c7_amount_parsing_amended :
    (∀ (now : ℤ) (x : String) (d : Draft),
      parseMessage now x = .ok d → 0 ≤ d.amount) ∧
    parseMessage 0 "outcome 75,5 Food BCA x" =
      .ok ⟨"outcome", 75.5, "Food", "BCA", 0, some "x"⟩ ∧
    parseMessage 0 "outcome 75.50 Food BCA x" =
      .ok ⟨"outcome", 7550, "Food", "BCA", 0, some "x"⟩ ∧
    parseMessage 0 "outcome 1.234,56 Food BCA lunch" = .error formatErrMsg := by
  refine ⟨?_, ?_, ?_, ?_⟩
  · intro now x d h
    simp only [parseMessage, parseMessageCore] at h
    split at h
    · split at h
      · exact absurd h (by simp)
      · next q hq =>
          split at h
          · exact absurd h (by simp)
          · next hq0 =>
              split at h
              · split at h
                · exact absurd h (by simp)
                · injection h with h
                  rw [← h]
                  simpa using not_lt.mp hq0
              · injection h with h
                rw [← h]
                simpa using not_lt.mp hq0
    · exact absurd h (by simp)
  · have h755 : (75.5 : ℚ) = 75 + 5 / 10 := by norm_num
    simp +decide [parseMessage, parseMessageCore, clean, collapseWs, collapseWsAux,
      trimWs, readTok, typeOk, amountShape, amountValue, jsNumber, parseUnsigned,
      digitsVal, bracketSplit, descOf, capFirstWord, jsToLower, jsToUpper, isWordChar,
      isJsWs, Char.toLower, Char.toUpper, List.replace, h755,
      show digitsValN ['7', '5'] = 75 from by decide,
      show digitsValN ['5'] = 5 from by decide]
    norm_num
  · simp +decide [parseMessage, parseMessageCore, clean, collapseWs, collapseWsAux,
      trimWs, readTok, typeOk, amountShape, amountValue, jsNumber, parseUnsigned,
      digitsVal, bracketSplit, descOf, capFirstWord, jsToLower, jsToUpper, isWordChar,
      isJsWs, Char.toLower, Char.toUpper]
  · simp +decide [parseMessage, parseMessageCore, clean, collapseWs, collapseWsAux,
      trimWs, readTok, typeOk, amountShape, amountValue, jsNumber, parseUnsigned,
      digitsVal, bracketSplit, descOf, capFirstWord, jsToLower, jsToUpper, isWordChar,
      isJsWs, Char.toLower, Char.toUpper, formatErrMsg]

/-- Closed instance of `c7_amount_parsing_amended`: non-negativity at
the `"75,5"` parse. -/
theorem c7_amount_parsing_amended_witness :
    (0 : ℚ) ≤ (Draft.mk "outcome" 75.5 "Food" "BCA" 0 (some "x")).amount :=
  c7_amount_parsing_amended.1 0 "outcome 75,5 Food BCA x" _
    c7_amount_parsing_amended.2.1
